import Mathlib

/-!
Shallow embedding of the RDM PID store of `include/ola/rdm/PidStore.h`.

The repository ships only the header: class layouts, inline bodies
(`PidCount`, `EstaStore`, `Version`, the constructors) and the declarations
of the lookup and validation methods.  The method bodies live in a source
file that is not part of the repository snapshot, so they are modelled here
from the specification; each such definition carries a doc comment saying
what is modelled.  Data-model shapes (the two indexes of `PidStore`, the
fields of `PidDescriptor` and `RootPidStore`, the inline body of
`PidCount`) are taken from the header itself.

C++ maps become association lists, pointers become `Option`, `uint16_t`
becomes `Nat` (the claims quantify over the 16-bit range where relevant).
-/

namespace OlaRdm

/-- Modelled from the spec: the broadcast sub-device sentinel
(`ALL_DEVICES` in the header comment), a reserved value outside the
concrete range 0–512 whose bit pattern follows the protocol's broadcast
convention (`0xffff`).  The constant itself is declared outside the header
under verification. -/
def ALL_SUB_DEVICES : Nat := 0xffff

/-- The closed four-way sub-device validator enumeration,
`PidDescriptor::sub_device_validator` in PidStore.h. -/
inductive SubDeviceValidator where
  | ROOT_DEVICE
  | ANY_SUB_DEVICE
  | NON_BROADCAST_SUB_DEVICE
  | SPECIFIC_SUB_DEVICE
  deriving DecidableEq

/-- `PidDescriptor` of PidStore.h: name, 16-bit value, four opaque
references to payload-shape descriptors (never interpreted by this core,
modelled as opaque `Option Nat` handles), and the GET/SET sub-device
validators. -/
structure PidDescriptor where
  m_name : String
  m_pid_value : Nat
  m_get_request : Option Nat
  m_get_response : Option Nat
  m_set_request : Option Nat
  m_set_response : Option Nat
  m_get_subdevice_range : SubDeviceValidator
  m_set_subdevice_range : SubDeviceValidator
  deriving DecidableEq

/-- `PidDescriptor::Name()` (inline in the header). -/
def PidDescriptor.Name (d : PidDescriptor) : String := d.m_name

/-- `PidDescriptor::Value()` (inline in the header). -/
def PidDescriptor.Value (d : PidDescriptor) : Nat := d.m_pid_value

/-- Modelled from the spec: the body of the private helper
`PidDescriptor::RequestValid(sub_device, validator)` is not in the
header; the spec gives the exhaustive validator table of §4.1:
ROOT_DEVICE accepts exactly 0; ANY_SUB_DEVICE accepts 0–512 or the
broadcast sentinel; NON_BROADCAST_SUB_DEVICE accepts 0–512;
SPECIFIC_SUB_DEVICE accepts 1–512. -/
def RequestValid (sub_device : Nat) (validator : SubDeviceValidator) : Bool :=
  match validator with
  | .ROOT_DEVICE => sub_device == 0
  | .ANY_SUB_DEVICE => decide (sub_device ≤ 512) || sub_device == ALL_SUB_DEVICES
  | .NON_BROADCAST_SUB_DEVICE => decide (sub_device ≤ 512)
  | .SPECIFIC_SUB_DEVICE => decide (1 ≤ sub_device) && decide (sub_device ≤ 512)

/-- Modelled from the spec: the body of `PidDescriptor::IsGetValid` is not
in the header; the spec says the input is evaluated against the GET
validator via the shared predicate. -/
def PidDescriptor.IsGetValid (d : PidDescriptor) (sub_device : Nat) : Bool :=
  RequestValid sub_device d.m_get_subdevice_range

/-- Modelled from the spec: the body of `PidDescriptor::IsSetValid` is not
in the header; the spec says the input is evaluated against the SET
validator via the shared predicate. -/
def PidDescriptor.IsSetValid (d : PidDescriptor) (sub_device : Nat) : Bool :=
  RequestValid sub_device d.m_set_subdevice_range

/-- `PidStore` of PidStore.h: two indexes (`m_pid_by_value`,
`m_pid_by_name`) over one logical descriptor set.  An index is modelled as
a list of its descriptors; the map key of an entry is the corresponding
field of the descriptor, as in the C++ construction. -/
structure PidStore where
  m_pid_by_value : List PidDescriptor
  m_pid_by_name : List PidDescriptor
  deriving DecidableEq

/-- Collision on value or on name, the condition under which the spec's
construction policy (§4.2) evicts an earlier descriptor. -/
def collidesWith (e d : PidDescriptor) : Bool :=
  e.m_pid_value == d.m_pid_value || e.m_name == d.m_name

/-- Insert a descriptor into one index: evict every earlier descriptor that
collides with it on value or on name, then append it. -/
def insertIndex (l : List PidDescriptor) (d : PidDescriptor) : List PidDescriptor :=
  (l.filter fun e => !(collidesWith e d)) ++ [d]

/-- Modelled from the spec: one insertion step of the `PidStore`
constructor, whose body is not in the header.  Per §4.2 and the collision
example of §8, the later-supplied descriptor wins and the evicted earlier
descriptor is removed from both the value index and the name index, so the
indexes stay mutually consistent. -/
def PidStore.insertPid (s : PidStore) (d : PidDescriptor) : PidStore :=
  { m_pid_by_value := insertIndex s.m_pid_by_value d
    m_pid_by_name := insertIndex s.m_pid_by_name d }

/-- Modelled from the spec: `PidStore::PidStore(pids)` (body not in the
header) indexes the supplied batch in order, resolving collisions
last-write-wins. -/
def PidStore.ofList (pids : List PidDescriptor) : PidStore :=
  pids.foldl PidStore.insertPid ⟨[], []⟩

/-- Modelled from the spec: `PidStore::LookupPID(uint16_t)` (body not in
the header) is an exact-match lookup in the value index. -/
def PidStore.LookupPIDByValue (s : PidStore) (pid_value : Nat) : Option PidDescriptor :=
  s.m_pid_by_value.find? fun d => d.m_pid_value == pid_value

/-- Modelled from the spec: `PidStore::LookupPID(const string &)` (body not
in the header) is a case-sensitive exact-match lookup in the name index. -/
def PidStore.LookupPIDByName (s : PidStore) (pid_name : String) : Option PidDescriptor :=
  s.m_pid_by_name.find? fun d => d.m_name == pid_name

/-- `PidStore::PidCount()`, inline in the header:
`return m_pid_by_value.size();`. -/
def PidStore.PidCount (s : PidStore) : Nat := s.m_pid_by_value.length

/-- `RootPidStore` of PidStore.h: an optional ESTA store, the manufacturer
map (16-bit id to store), and the data version. -/
structure RootPidStore where
  m_esta_store : Option PidStore
  m_manufacturer_store : List (Nat × PidStore)
  m_version : Nat
  deriving DecidableEq

/-- `RootPidStore::Version()` (inline in the header). -/
def RootPidStore.Version (r : RootPidStore) : Nat := r.m_version

/-- `RootPidStore::EstaStore()` (inline in the header): the ESTA store or
NULL. -/
def RootPidStore.EstaStore (r : RootPidStore) : Option PidStore := r.m_esta_store

/-- Modelled from the spec: `RootPidStore::ManufacturerStore(esta_id)`
(body not in the header) returns the registered store for the id, or
absent for any unregistered id. -/
def RootPidStore.ManufacturerStore (r : RootPidStore) (esta_id : Nat) : Option PidStore :=
  (r.m_manufacturer_store.find? fun p => p.1 == esta_id).map Prod.snd

/-- Modelled from the spec: the private helper
`RootPidStore::InternalESTANameLookup(pid_name)` (body not in the header)
looks a name up in the ESTA store alone, absent when there is no ESTA
store. -/
def RootPidStore.InternalESTANameLookup (r : RootPidStore) (pid_name : String) :
    Option PidDescriptor :=
  r.m_esta_store.bind fun s => s.LookupPIDByName pid_name

/-- Modelled from the spec: unscoped
`RootPidStore::GetDescriptor(pid_name)` (body not in the header) searches
the standard (ESTA) namespace only. -/
def RootPidStore.GetDescriptorByName (r : RootPidStore) (pid_name : String) :
    Option PidDescriptor :=
  r.InternalESTANameLookup pid_name

/-- Modelled from the spec: unscoped
`RootPidStore::GetDescriptor(pid_value)` (body not in the header) searches
the standard (ESTA) namespace only. -/
def RootPidStore.GetDescriptorByValue (r : RootPidStore) (pid_value : Nat) :
    Option PidDescriptor :=
  r.m_esta_store.bind fun s => s.LookupPIDByValue pid_value

/-- Modelled from the spec: scoped
`RootPidStore::GetDescriptor(pid_name, manufacturer_id)` (body not in the
header) is a two-phase search, first the standard namespace, then, only on
a miss there, the given manufacturer's namespace. -/
def RootPidStore.GetDescriptorByNameScoped (r : RootPidStore) (pid_name : String)
    (manufacturer_id : Nat) : Option PidDescriptor :=
  match r.InternalESTANameLookup pid_name with
  | some d => some d
  | none => (r.ManufacturerStore manufacturer_id).bind fun s => s.LookupPIDByName pid_name

/-- Modelled from the spec: scoped
`RootPidStore::GetDescriptor(pid_value, manufacturer_id)` (body not in the
header) is a two-phase search, first the standard namespace, then, only on
a miss there, the given manufacturer's namespace. -/
def RootPidStore.GetDescriptorByValueScoped (r : RootPidStore) (pid_value : Nat)
    (manufacturer_id : Nat) : Option PidDescriptor :=
  match r.GetDescriptorByValue pid_value with
  | some d => some d
  | none => (r.ManufacturerStore manufacturer_id).bind fun s => s.LookupPIDByValue pid_value

/-- The second phase of a scoped lookup by value: the manufacturer store's
own lookup, used to state the two-phase property. -/
def manufacturerLookupByValue (r : RootPidStore) (manufacturer_id pid_value : Nat) :
    Option PidDescriptor :=
  (r.ManufacturerStore manufacturer_id).bind fun s => s.LookupPIDByValue pid_value

/-- The second phase of a scoped lookup by name: the manufacturer store's
own lookup, used to state the two-phase property. -/
def manufacturerLookupByName (r : RootPidStore) (manufacturer_id : Nat) (pid_name : String) :
    Option PidDescriptor :=
  (r.ManufacturerStore manufacturer_id).bind fun s => s.LookupPIDByName pid_name

/-! ### Sample data, after the end-to-end scenario of spec §8 -/

/-- Sample standard-namespace descriptor (spec §8 scenario). -/
def sampleDeviceInfo : PidDescriptor :=
  ⟨"DEVICE_INFO", 0x60, some 1, some 2, none, none, .ANY_SUB_DEVICE, .ANY_SUB_DEVICE⟩

/-- Sample manufacturer-namespace descriptor (spec §8 scenario). -/
def sampleCustomColor : PidDescriptor :=
  ⟨"CUSTOM_COLOR", 0x8010, some 3, some 4, some 5, some 6, .ANY_SUB_DEVICE, .SPECIFIC_SUB_DEVICE⟩

/-- Sample standard-namespace store. -/
def sampleEstaStore : PidStore := PidStore.ofList [sampleDeviceInfo]

/-- Sample manufacturer store. -/
def sampleManuStore : PidStore := PidStore.ofList [sampleCustomColor]

/-- Sample registry: ESTA store plus one manufacturer store at id 0x7FF0. -/
def sampleRoot : RootPidStore :=
  ⟨some sampleEstaStore, [(0x7FF0, sampleManuStore)], 1⟩

/-! ### The validator table -/

/-- The spec-side addressing table of §4.1, stated as a predicate to compare
against the code-side `RequestValid`. -/
def ValidatorSpec : SubDeviceValidator → Nat → Prop
  | .ROOT_DEVICE, s => s = 0
  | .ANY_SUB_DEVICE, s => s ≤ 512 ∨ s = ALL_SUB_DEVICES
  | .NON_BROADCAST_SUB_DEVICE, s => s ≤ 512
  | .SPECIFIC_SUB_DEVICE, s => 1 ≤ s ∧ s ≤ 512

theorem requestValid_iff (v : SubDeviceValidator) (s : Nat) :
    RequestValid s v = true ↔ ValidatorSpec v s := by
  cases v <;> simp [RequestValid, ValidatorSpec]

/-- C3: `IsGetValid` and `IsSetValid` implement exactly the four-way
validator table against the respective validator field: ROOT_DEVICE accepts
only 0; ANY_SUB_DEVICE accepts 0–512 and the broadcast sentinel;
NON_BROADCAST_SUB_DEVICE accepts 0–512; SPECIFIC_SUB_DEVICE accepts
1–512. -/
theorem C3_validator_table (d : PidDescriptor) (s : Nat) :
    (d.IsGetValid s = true ↔ ValidatorSpec d.m_get_subdevice_range s) ∧
    (d.IsSetValid s = true ↔ ValidatorSpec d.m_set_subdevice_range s) :=
  ⟨requestValid_iff d.m_get_subdevice_range s, requestValid_iff d.m_set_subdevice_range s⟩

/-- C5: the validity predicates are total Boolean functions; any input
outside the accepted set of every validator — above 512 and not the
broadcast sentinel, such as 513 — yields `false` for both GET and SET,
never an error. -/
theorem C5_invalid_input_yields_false (d : PidDescriptor) (s : Nat)
    (hrange : 512 < s) (hsent : s ≠ ALL_SUB_DEVICES) :
    d.IsGetValid s = false ∧ d.IsSetValid s = false := by
  have key : ∀ v : SubDeviceValidator, RequestValid s v = false := by
    intro v
    cases hb : RequestValid s v
    · rfl
    · exfalso
      have hs := (requestValid_iff v s).mp hb
      cases v with
      | ROOT_DEVICE => simp [ValidatorSpec] at hs; omega
      | ANY_SUB_DEVICE =>
          rcases hs with h | h
          · omega
          · exact hsent h
      | NON_BROADCAST_SUB_DEVICE => simp [ValidatorSpec] at hs; omega
      | SPECIFIC_SUB_DEVICE => simp [ValidatorSpec] at hs; omega
  exact ⟨key d.m_get_subdevice_range, key d.m_set_subdevice_range⟩

/-- Witness for C5 at the concrete out-of-range input 513. -/
theorem C5_invalid_input_yields_false_witness :
    sampleCustomColor.IsGetValid 513 = false ∧ sampleCustomColor.IsSetValid 513 = false :=
  C5_invalid_input_yields_false sampleCustomColor 513 (by decide) (by decide)

/-- C9: GET and SET validity are one shared predicate applied to the
respective validator tag: equal tags give equal results across the
GET/SET axis, and each result depends only on its own tag. -/
theorem C9_shared_predicate (d1 d2 : PidDescriptor) (s : Nat) :
    (d1.m_get_subdevice_range = d2.m_set_subdevice_range →
      d1.IsGetValid s = d2.IsSetValid s) ∧
    (d1.m_get_subdevice_range = d2.m_get_subdevice_range →
      d1.IsGetValid s = d2.IsGetValid s) ∧
    (d1.m_set_subdevice_range = d2.m_set_subdevice_range →
      d1.IsSetValid s = d2.IsSetValid s) := by
  refine ⟨fun h => ?_, fun h => ?_, fun h => ?_⟩ <;>
    simp [PidDescriptor.IsGetValid, PidDescriptor.IsSetValid, h]

/-- Witness for C9: `sampleDeviceInfo`'s SET validator equals
`sampleCustomColor`'s GET validator, and their GET validators agree, while
every other field differs. -/
theorem C9_shared_predicate_witness :
    sampleCustomColor.IsGetValid 5 = sampleDeviceInfo.IsSetValid 5 ∧
    sampleCustomColor.IsGetValid 5 = sampleDeviceInfo.IsGetValid 5 :=
  ⟨(C9_shared_predicate sampleCustomColor sampleDeviceInfo 5).1 (by decide),
   (C9_shared_predicate sampleCustomColor sampleDeviceInfo 5).2.1 (by decide)⟩

/-! ### Registry resolution -/

/-- C1: the scoped lookups are a two-phase search.  Whatever the standard
(ESTA) namespace returns for the key wins; only on a standard-namespace
miss is the given manufacturer's store consulted; a miss in both is
absent. -/
theorem C1_scoped_lookup_two_phase (r : RootPidStore) (v : Nat) (n : String) (m : Nat) :
    (∀ d, r.GetDescriptorByValue v = some d → r.GetDescriptorByValueScoped v m = some d) ∧
    (r.GetDescriptorByValue v = none →
      r.GetDescriptorByValueScoped v m = manufacturerLookupByValue r m v) ∧
    (r.GetDescriptorByValue v = none → manufacturerLookupByValue r m v = none →
      r.GetDescriptorByValueScoped v m = none) ∧
    (∀ d, r.GetDescriptorByName n = some d → r.GetDescriptorByNameScoped n m = some d) ∧
    (r.GetDescriptorByName n = none →
      r.GetDescriptorByNameScoped n m = manufacturerLookupByName r m n) ∧
    (r.GetDescriptorByName n = none → manufacturerLookupByName r m n = none →
      r.GetDescriptorByNameScoped n m = none) := by
  refine ⟨fun d h => ?_, fun h => ?_, fun h h2 => ?_, fun d h => ?_, fun h => ?_,
    fun h h2 => ?_⟩ <;>
    simp only [RootPidStore.GetDescriptorByValueScoped, RootPidStore.GetDescriptorByNameScoped,
      RootPidStore.GetDescriptorByName, manufacturerLookupByValue, manufacturerLookupByName] at *
  · rw [h]
  · rw [h]
  · rw [h, h2]
  · rw [h]
  · rw [h]
  · rw [h, h2]

/-- Witness for C1 on the §8 scenario registry: a standard hit wins in
phase one, a standard miss falls through to the manufacturer store, and a
key absent from both is absent. -/
theorem C1_scoped_lookup_two_phase_witness :
    sampleRoot.GetDescriptorByValueScoped 0x60 0x7FF0 = some sampleDeviceInfo ∧
    sampleRoot.GetDescriptorByValueScoped 0x8010 0x7FF0 =
      manufacturerLookupByValue sampleRoot 0x7FF0 0x8010 ∧
    sampleRoot.GetDescriptorByValueScoped 0x9999 0x7FF0 = none ∧
    sampleRoot.GetDescriptorByNameScoped "DEVICE_INFO" 0x7FF0 = some sampleDeviceInfo ∧
    sampleRoot.GetDescriptorByNameScoped "CUSTOM_COLOR" 0x7FF0 =
      manufacturerLookupByName sampleRoot 0x7FF0 "CUSTOM_COLOR" ∧
    sampleRoot.GetDescriptorByNameScoped "NOBODY" 0x7FF0 = none :=
  ⟨(C1_scoped_lookup_two_phase sampleRoot 0x60 "" 0x7FF0).1 sampleDeviceInfo (by decide),
   (C1_scoped_lookup_two_phase sampleRoot 0x8010 "" 0x7FF0).2.1 (by decide),
   (C1_scoped_lookup_two_phase sampleRoot 0x9999 "" 0x7FF0).2.2.1 (by decide) (by decide),
   (C1_scoped_lookup_two_phase sampleRoot 0 "DEVICE_INFO" 0x7FF0).2.2.2.1 sampleDeviceInfo
     (by decide),
   (C1_scoped_lookup_two_phase sampleRoot 0 "CUSTOM_COLOR" 0x7FF0).2.2.2.2.1 (by decide),
   (C1_scoped_lookup_two_phase sampleRoot 0 "NOBODY" 0x7FF0).2.2.2.2.2 (by decide) (by decide)⟩

/-- C4: the unscoped lookups search the standard (ESTA) namespace only.
For a key absent from the standard namespace but present in manufacturer
M's store, the unscoped lookup is absent while the scoped lookup with M
returns the manufacturer's descriptor. -/
theorem C4_unscoped_esta_only (r : RootPidStore) (v m : Nat) (n : String)
    (d e : PidDescriptor)
    (hv : r.m_esta_store.bind (fun st => st.LookupPIDByValue v) = none)
    (hn : r.m_esta_store.bind (fun st => st.LookupPIDByName n) = none)
    (hdv : manufacturerLookupByValue r m v = some d)
    (hdn : manufacturerLookupByName r m n = some e) :
    r.GetDescriptorByValue v = none ∧
    r.GetDescriptorByValueScoped v m = some d ∧
    r.GetDescriptorByName n = none ∧
    r.GetDescriptorByNameScoped n m = some e := by
  have huv : r.GetDescriptorByValue v = none := hv
  have hun : r.GetDescriptorByName n = none := hn
  refine ⟨huv, ?_, hun, ?_⟩
  · rw [RootPidStore.GetDescriptorByValueScoped, huv]
    exact hdv
  · rw [RootPidStore.GetDescriptorByNameScoped]
    rw [RootPidStore.GetDescriptorByName] at hun
    rw [hun]
    exact hdn

/-- Witness for C4: PID 0x8010 / name CUSTOM_COLOR exists only in the
manufacturer 0x7FF0 store of the §8 scenario registry. -/
theorem C4_unscoped_esta_only_witness :
    sampleRoot.GetDescriptorByValue 0x8010 = none ∧
    sampleRoot.GetDescriptorByValueScoped 0x8010 0x7FF0 = some sampleCustomColor ∧
    sampleRoot.GetDescriptorByName "CUSTOM_COLOR" = none ∧
    sampleRoot.GetDescriptorByNameScoped "CUSTOM_COLOR" 0x7FF0 = some sampleCustomColor :=
  C4_unscoped_esta_only sampleRoot 0x8010 0x7FF0 "CUSTOM_COLOR"
    sampleCustomColor sampleCustomColor (by decide) (by decide) (by decide) (by decide)

/-- C10: a scoped lookup with an unregistered manufacturer id degrades to
the unscoped behaviour: the standard namespace's answer, absent on a miss,
never an error. -/
theorem C10_scoped_unregistered_degrades (r : RootPidStore) (v m : Nat) (n : String)
    (h : r.ManufacturerStore m = none) :
    r.GetDescriptorByValueScoped v m = r.GetDescriptorByValue v ∧
    r.GetDescriptorByNameScoped n m = r.GetDescriptorByName n := by
  constructor
  · rw [RootPidStore.GetDescriptorByValueScoped]
    cases hc : r.GetDescriptorByValue v with
    | none => rw [h]; rfl
    | some d => rfl
  · rw [RootPidStore.GetDescriptorByNameScoped, RootPidStore.GetDescriptorByName]
    cases hc : r.InternalESTANameLookup n with
    | none => rw [h]; rfl
    | some d => rfl

/-- Witness for C10: manufacturer id 3 is unregistered in the §8 scenario
registry, so scoped lookups with it match the unscoped ones. -/
theorem C10_scoped_unregistered_degrades_witness :
    sampleRoot.GetDescriptorByValueScoped 0x8010 3 = sampleRoot.GetDescriptorByValue 0x8010 ∧
    sampleRoot.GetDescriptorByNameScoped "DEVICE_INFO" 3 =
      sampleRoot.GetDescriptorByName "DEVICE_INFO" :=
  C10_scoped_unregistered_degrades sampleRoot 0x8010 3 "DEVICE_INFO" (by decide)

/-- C8: a registry with no ESTA store and an empty manufacturer map is
well-formed: `EstaStore` is absent, every unscoped and scoped lookup is
absent rather than failing, and `ManufacturerStore` is absent for every
unregistered id on any registry. -/
theorem C8_empty_registry_graceful (version idm v : Nat) (n : String)
    (r : RootPidStore) (hunreg : ∀ p ∈ r.m_manufacturer_store, p.1 ≠ idm) :
    (RootPidStore.mk none [] version).EstaStore = none ∧
    (RootPidStore.mk none [] version).ManufacturerStore idm = none ∧
    (RootPidStore.mk none [] version).GetDescriptorByValue v = none ∧
    (RootPidStore.mk none [] version).GetDescriptorByName n = none ∧
    (RootPidStore.mk none [] version).GetDescriptorByValueScoped v idm = none ∧
    (RootPidStore.mk none [] version).GetDescriptorByNameScoped n idm = none ∧
    r.ManufacturerStore idm = none := by
  refine ⟨rfl, rfl, rfl, rfl, rfl, rfl, ?_⟩
  rw [RootPidStore.ManufacturerStore]
  have hfind : r.m_manufacturer_store.find? (fun p => p.1 == idm) = none := by
    rw [List.find?_eq_none]
    intro p hp
    simp only [beq_iff_eq]
    exact hunreg p hp
  rw [hfind]
  rfl

/-- Witness for C8 on the empty registry at version 7 and on the §8
scenario registry with the unregistered manufacturer id 3. -/
theorem C8_empty_registry_graceful_witness :
    (RootPidStore.mk none [] 7).EstaStore = none ∧
    (RootPidStore.mk none [] 7).ManufacturerStore 3 = none ∧
    (RootPidStore.mk none [] 7).GetDescriptorByValue 0x60 = none ∧
    (RootPidStore.mk none [] 7).GetDescriptorByName "DEVICE_INFO" = none ∧
    (RootPidStore.mk none [] 7).GetDescriptorByValueScoped 0x60 3 = none ∧
    (RootPidStore.mk none [] 7).GetDescriptorByNameScoped "DEVICE_INFO" 3 = none ∧
    sampleRoot.ManufacturerStore 3 = none :=
  C8_empty_registry_graceful 7 3 0x60 "DEVICE_INFO" sampleRoot (by decide)

/-! ### Index lemmas -/

theorem collidesWith_false_iff {e d : PidDescriptor} :
    collidesWith e d = false ↔ e.m_pid_value ≠ d.m_pid_value ∧ e.m_name ≠ d.m_name := by
  simp [collidesWith]

theorem find?_insertIndex_self (l : List PidDescriptor) (d : PidDescriptor)
    (p : PidDescriptor → Bool) (hd : p d = true)
    (hkept : ∀ e, collidesWith e d = false → p e = false) :
    (insertIndex l d).find? p = some d := by
  rw [insertIndex, List.find?_append]
  have hleft : (l.filter fun e => !(collidesWith e d)).find? p = none := by
    rw [List.find?_eq_none]
    intro x hx
    have hq : collidesWith x d = false := by
      have := (List.mem_filter.mp hx).2
      simpa using this
    simp [hkept x hq]
  rw [hleft, List.find?_cons_of_pos _ hd]
  rfl

theorem find?_filter_of_find? {l : List PidDescriptor} {p q : PidDescriptor → Bool}
    {d : PidDescriptor} (h : l.find? p = some d) (hq : q d = true) :
    (l.filter q).find? p = some d := by
  induction l with
  | nil => simp at h
  | cons a t ih =>
      by_cases hpa : p a = true
      · rw [List.find?_cons_of_pos _ hpa] at h
        have had : a = d := by injection h
        subst had
        rw [List.filter_cons_of_pos hq, List.find?_cons_of_pos _ hpa]
      · have hpa' : ¬ p a := by simpa using hpa
        rw [List.find?_cons_of_neg _ hpa'] at h
        rw [List.filter_cons]
        by_cases hqa : q a = true
        · rw [if_pos hqa, List.find?_cons_of_neg _ hpa']
          exact ih h
        · rw [if_neg hqa]
          exact ih h

theorem find?_insertIndex_preserve {l : List PidDescriptor} {d e : PidDescriptor}
    {p : PidDescriptor → Bool} (h : l.find? p = some d)
    (hcol : collidesWith d e = false) :
    (insertIndex l e).find? p = some d := by
  rw [insertIndex, List.find?_append]
  have hq : (fun x => !(collidesWith x e)) d = true := by simp [hcol]
  rw [find?_filter_of_find? h hq]
  rfl

theorem lookupValue_insert_self (s : PidStore) (d : PidDescriptor) :
    (s.insertPid d).LookupPIDByValue d.m_pid_value = some d := by
  rw [PidStore.insertPid, PidStore.LookupPIDByValue]
  exact find?_insertIndex_self _ d _ (by simp) fun e he => by
    simp [(collidesWith_false_iff.mp he).1]

theorem lookupName_insert_self (s : PidStore) (d : PidDescriptor) :
    (s.insertPid d).LookupPIDByName d.m_name = some d := by
  rw [PidStore.insertPid, PidStore.LookupPIDByName]
  exact find?_insertIndex_self _ d _ (by simp) fun e he => by
    simp [(collidesWith_false_iff.mp he).2]

theorem lookupValue_insert_other {s : PidStore} {d e : PidDescriptor}
    (h : s.LookupPIDByValue d.m_pid_value = some d)
    (hv : e.m_pid_value ≠ d.m_pid_value) (hn : e.m_name ≠ d.m_name) :
    (s.insertPid e).LookupPIDByValue d.m_pid_value = some d := by
  rw [PidStore.insertPid, PidStore.LookupPIDByValue]
  rw [PidStore.LookupPIDByValue] at h
  exact find?_insertIndex_preserve h
    (collidesWith_false_iff.mpr ⟨fun hh => hv hh.symm, fun hh => hn hh.symm⟩)

theorem lookupName_insert_other {s : PidStore} {d e : PidDescriptor}
    (h : s.LookupPIDByName d.m_name = some d)
    (hv : e.m_pid_value ≠ d.m_pid_value) (hn : e.m_name ≠ d.m_name) :
    (s.insertPid e).LookupPIDByName d.m_name = some d := by
  rw [PidStore.insertPid, PidStore.LookupPIDByName]
  rw [PidStore.LookupPIDByName] at h
  exact find?_insertIndex_preserve h
    (collidesWith_false_iff.mpr ⟨fun hh => hv hh.symm, fun hh => hn hh.symm⟩)

theorem foldl_lookup_aux (pids : List PidDescriptor) (s : PidStore) (d : PidDescriptor)
    (huniq : ∀ e ∈ pids, e = d ∨ (e.m_pid_value ≠ d.m_pid_value ∧ e.m_name ≠ d.m_name))
    (hbase : d ∈ pids ∨
      (s.LookupPIDByValue d.m_pid_value = some d ∧ s.LookupPIDByName d.m_name = some d)) :
    (pids.foldl PidStore.insertPid s).LookupPIDByValue d.m_pid_value = some d ∧
    (pids.foldl PidStore.insertPid s).LookupPIDByName d.m_name = some d := by
  induction pids generalizing s with
  | nil =>
      rcases hbase with hmem | hok
      · exact absurd hmem (List.not_mem_nil d)
      · exact hok
  | cons a t ih =>
      rw [List.foldl_cons]
      rcases huniq a (List.mem_cons_self a t) with rfl | hno
      · exact ih _ (fun e he => huniq e (List.mem_cons_of_mem a he))
          (Or.inr ⟨lookupValue_insert_self s a, lookupName_insert_self s a⟩)
      · rcases hbase with hmem | hok
        · have hat : d ∈ t := by
            rcases List.mem_cons.mp hmem with rfl | ht
            · exact absurd rfl hno.1
            · exact ht
          exact ih _ (fun e he => huniq e (List.mem_cons_of_mem a he)) (Or.inl hat)
        · exact ih _ (fun e he => huniq e (List.mem_cons_of_mem a he))
            (Or.inr ⟨lookupValue_insert_other hok.1 hno.1 hno.2,
                     lookupName_insert_other hok.2 hno.1 hno.2⟩)

/-- C6: a descriptor inserted without any collision on its value or its
name round-trips through both indexes: lookup by its value and
(case-sensitive) lookup by its name both return it. -/
theorem C6_uncontested_round_trip (pids : List PidDescriptor) (d : PidDescriptor)
    (hmem : d ∈ pids)
    (huniq : ∀ e ∈ pids, e = d ∨ (e.m_pid_value ≠ d.m_pid_value ∧ e.m_name ≠ d.m_name)) :
    (PidStore.ofList pids).LookupPIDByValue d.Value = some d ∧
    (PidStore.ofList pids).LookupPIDByName d.Name = some d :=
  foldl_lookup_aux pids ⟨[], []⟩ d huniq (Or.inl hmem)

/-- Witness for C6 on the two uncontested §8 scenario descriptors. -/
theorem C6_uncontested_round_trip_witness :
    (PidStore.ofList [sampleDeviceInfo, sampleCustomColor]).LookupPIDByValue
      sampleCustomColor.Value = some sampleCustomColor ∧
    (PidStore.ofList [sampleDeviceInfo, sampleCustomColor]).LookupPIDByName
      sampleCustomColor.Name = some sampleCustomColor :=
  C6_uncontested_round_trip [sampleDeviceInfo, sampleCustomColor] sampleCustomColor
    (by decide) (by decide)

theorem insertIndex_unique (l : List PidDescriptor) (A : PidDescriptor)
    (p : PidDescriptor → Bool)
    (hkept : ∀ e, collidesWith e A = false → p e = false) :
    ∀ x ∈ insertIndex l A, p x = true → x = A := by
  intro x hx hpx
  rcases List.mem_append.mp hx with hxl | hxA
  · have hq : collidesWith x A = false := by
      have := (List.mem_filter.mp hxl).2
      simpa using this
    rw [hkept x hq] at hpx
    cases hpx
  · simpa using hxA

theorem insertIndex_unique_step (l : List PidDescriptor) (A e : PidDescriptor)
    (p : PidDescriptor → Bool) (hpe : p e = false)
    (hprev : ∀ x ∈ l, p x = true → x = A) :
    ∀ x ∈ insertIndex l e, p x = true → x = A := by
  intro x hx hpx
  rcases List.mem_append.mp hx with hxl | hxe
  · exact hprev x (List.mem_filter.mp hxl).1 hpx
  · have hxe' : x = e := by simpa using hxe
    subst hxe'
    rw [hpe] at hpx
    cases hpx

theorem insertIndex_evict (l : List PidDescriptor) (A B : PidDescriptor)
    (p : PidDescriptor → Bool) (hpB : p B = false)
    (hcolAB : collidesWith A B = true)
    (hprev : ∀ x ∈ l, p x = true → x = A) :
    (insertIndex l B).find? p = none := by
  rw [List.find?_eq_none]
  intro x hx
  rcases List.mem_append.mp hx with hxl | hxB
  · intro hpx
    have hxA : x = A := hprev x (List.mem_filter.mp hxl).1 hpx
    have hq := (List.mem_filter.mp hxl).2
    subst hxA
    rw [hcolAB] at hq
    simp at hq
  · have hxB' : x = B := by simpa using hxB
    subst hxB'
    simp [hpB]

theorem foldl_preserves_unique (mid : List PidDescriptor) (s : PidStore)
    (A : PidDescriptor) (pv pn : PidDescriptor → Bool)
    (hmv : ∀ e ∈ mid, pv e = false) (hmn : ∀ e ∈ mid, pn e = false)
    (hv : ∀ x ∈ s.m_pid_by_value, pv x = true → x = A)
    (hn : ∀ x ∈ s.m_pid_by_name, pn x = true → x = A) :
    (∀ x ∈ (mid.foldl PidStore.insertPid s).m_pid_by_value, pv x = true → x = A) ∧
    (∀ x ∈ (mid.foldl PidStore.insertPid s).m_pid_by_name, pn x = true → x = A) := by
  induction mid generalizing s with
  | nil => exact ⟨hv, hn⟩
  | cons e t ih =>
      rw [List.foldl_cons]
      exact ih _
        (fun x hx => hmv x (List.mem_cons_of_mem e hx))
        (fun x hx => hmn x (List.mem_cons_of_mem e hx))
        (insertIndex_unique_step _ A e pv (hmv e (List.mem_cons_self e t)) hv)
        (insertIndex_unique_step _ A e pn (hmn e (List.mem_cons_self e t)) hn)

/-- C2: in any batch where descriptor A is supplied before descriptor B,
they collide on value or on name, and the descriptors between them do not
collide with A, the later-supplied B wins: lookup by B's value and by B's
name both return B, and the evicted A is removed from both indexes — its
value is absent from the value index whenever it differs from B's, and its
name is absent from the name index whenever it differs from B's. -/
theorem C2_collision_last_write_wins (pre mid : List PidDescriptor) (A B : PidDescriptor)
    (hcol : A.m_pid_value = B.m_pid_value ∨ A.m_name = B.m_name)
    (hmid : ∀ e ∈ mid, collidesWith e A = false) :
    (PidStore.ofList (pre ++ A :: (mid ++ [B]))).LookupPIDByValue B.Value = some B ∧
    (PidStore.ofList (pre ++ A :: (mid ++ [B]))).LookupPIDByName B.Name = some B ∧
    (A.m_pid_value ≠ B.m_pid_value →
      (PidStore.ofList (pre ++ A :: (mid ++ [B]))).LookupPIDByValue A.Value = none) ∧
    (A.m_name ≠ B.m_name →
      (PidStore.ofList (pre ++ A :: (mid ++ [B]))).LookupPIDByName A.Name = none) := by
  have hcolAB : collidesWith A B = true := by
    rcases hcol with h | h <;> simp [collidesWith, h]
  have hfold : PidStore.ofList (pre ++ A :: (mid ++ [B])) =
      PidStore.insertPid
        (mid.foldl PidStore.insertPid
          (PidStore.insertPid (pre.foldl PidStore.insertPid ⟨[], []⟩) A)) B := by
    rw [PidStore.ofList, List.foldl_append, List.foldl_cons, List.foldl_append,
      List.foldl_cons, List.foldl_nil]
  set s1 := PidStore.insertPid (pre.foldl PidStore.insertPid ⟨[], []⟩) A with hs1
  set s2 := mid.foldl PidStore.insertPid s1 with hs2
  have hkv : ∀ e, collidesWith e A = false →
      (e.m_pid_value == A.m_pid_value) = false := fun e he => by
    simp [(collidesWith_false_iff.mp he).1]
  have hkn : ∀ e, collidesWith e A = false →
      (e.m_name == A.m_name) = false := fun e he => by
    simp [(collidesWith_false_iff.mp he).2]
  have huniq := foldl_preserves_unique mid s1 A
    (fun e => e.m_pid_value == A.m_pid_value) (fun e => e.m_name == A.m_name)
    (fun e he => hkv e (hmid e he)) (fun e he => hkn e (hmid e he))
    (insertIndex_unique _ A _ hkv) (insertIndex_unique _ A _ hkn)
  rw [hfold]
  refine ⟨lookupValue_insert_self s2 B, lookupName_insert_self s2 B, fun hv => ?_, fun hn => ?_⟩
  · rw [PidStore.insertPid, PidStore.LookupPIDByValue]
    simp only [PidDescriptor.Value]
    exact insertIndex_evict _ A B _ (beq_eq_false_iff_ne.mpr (Ne.symm hv)) hcolAB huniq.1
  · rw [PidStore.insertPid, PidStore.LookupPIDByName]
    simp only [PidDescriptor.Name]
    exact insertIndex_evict _ A B _ (beq_eq_false_iff_ne.mpr (Ne.symm hn)) hcolAB huniq.2

/-- The A descriptor of the spec's §8 collision example: value 5, name X. -/
def collideA : PidDescriptor :=
  ⟨"X", 5, none, none, none, none, .ROOT_DEVICE, .ROOT_DEVICE⟩

/-- The B descriptor of the spec's §8 collision example: value 5, name Y. -/
def collideB : PidDescriptor :=
  ⟨"Y", 5, none, none, none, none, .ANY_SUB_DEVICE, .SPECIFIC_SUB_DEVICE⟩

/-- A descriptor colliding with `collideA` on name only: value 6, name X. -/
def collideC : PidDescriptor :=
  ⟨"X", 6, none, none, none, none, .NON_BROADCAST_SUB_DEVICE, .ROOT_DEVICE⟩

/-- Witness for C2: the spec's concrete value collision
(5,X) then (5,Y) — B wins by value and name, X absent from the name
index — and a name collision (5,X) then (6,X) — the later descriptor wins
the name and value 5 is absent from the value index. -/
theorem C2_collision_last_write_wins_witness :
    (PidStore.ofList [collideA, collideB]).LookupPIDByValue collideB.Value = some collideB ∧
    (PidStore.ofList [collideA, collideB]).LookupPIDByName collideB.Name = some collideB ∧
    (PidStore.ofList [collideA, collideB]).LookupPIDByName collideA.Name = none ∧
    (PidStore.ofList [collideA, collideC]).LookupPIDByName collideC.Name = some collideC ∧
    (PidStore.ofList [collideA, collideC]).LookupPIDByValue collideA.Value = none :=
  ⟨(C2_collision_last_write_wins [] [] collideA collideB (by decide) (by decide)).1,
   (C2_collision_last_write_wins [] [] collideA collideB (by decide) (by decide)).2.1,
   (C2_collision_last_write_wins [] [] collideA collideB (by decide) (by decide)).2.2.2
     (by decide),
   (C2_collision_last_write_wins [] [] collideA collideC (by decide) (by decide)).2.1,
   (C2_collision_last_write_wins [] [] collideA collideC (by decide) (by decide)).2.2.1
     (by decide)⟩

/-! ### Counting -/

theorem values_nodup_insertIndex (l : List PidDescriptor) (d : PidDescriptor)
    (h : (l.map PidDescriptor.m_pid_value).Nodup) :
    ((insertIndex l d).map PidDescriptor.m_pid_value).Nodup := by
  rw [insertIndex, List.map_append]
  refine List.Nodup.append ?_ (List.nodup_singleton _) ?_
  · exact h.sublist ((List.filter_sublist l).map PidDescriptor.m_pid_value)
  · intro x hx hx'
    simp only [List.map_cons, List.map_nil, List.mem_singleton] at hx'
    subst hx'
    rcases List.mem_map.mp hx with ⟨e, he, hev⟩
    have hq : collidesWith e d = false := by
      have := (List.mem_filter.mp he).2
      simpa using this
    exact (collidesWith_false_iff.mp hq).1 hev

theorem values_nodup_foldl (pids : List PidDescriptor) (s : PidStore)
    (h : (s.m_pid_by_value.map PidDescriptor.m_pid_value).Nodup) :
    (((pids.foldl PidStore.insertPid s).m_pid_by_value).map PidDescriptor.m_pid_value).Nodup := by
  induction pids generalizing s with
  | nil => exact h
  | cons a t ih =>
      rw [List.foldl_cons]
      exact ih _ (values_nodup_insertIndex _ a h)

theorem length_foldl_le (pids : List PidDescriptor) (s : PidStore) :
    (pids.foldl PidStore.insertPid s).m_pid_by_value.length ≤
      s.m_pid_by_value.length + pids.length := by
  induction pids generalizing s with
  | nil => simp
  | cons a t ih =>
      rw [List.foldl_cons]
      have hstep : (s.insertPid a).m_pid_by_value.length ≤ s.m_pid_by_value.length + 1 := by
        rw [PidStore.insertPid]
        simp only [insertIndex, List.length_append, List.length_cons, List.length_nil]
        have := List.length_filter_le (fun e => !(collidesWith e a)) s.m_pid_by_value
        omega
      have := ih (s.insertPid a)
      simp only [List.length_cons]
      omega

/-- C7: `PidCount` equals the number of distinct values surviving collision
resolution in the value index (the surviving values are pairwise distinct,
so the index size is exactly that count), and is bounded by — in general
differs from — the raw number of descriptors supplied. -/
theorem C7_count_distinct_surviving (pids : List PidDescriptor) :
    (PidStore.ofList pids).PidCount =
      (((PidStore.ofList pids).m_pid_by_value.map PidDescriptor.m_pid_value).dedup).length ∧
    (PidStore.ofList pids).PidCount ≤ pids.length := by
  have hnd : (((PidStore.ofList pids).m_pid_by_value).map PidDescriptor.m_pid_value).Nodup :=
    values_nodup_foldl pids ⟨[], []⟩ (by simp)
  constructor
  · rw [List.dedup_eq_self.mpr hnd, List.length_map]
    rfl
  · have := length_foldl_le pids ⟨[], []⟩
    simpa [PidStore.ofList, PidStore.PidCount] using this

end OlaRdm
